import Mathlib

/-!
Verification of the node-seedlink-data-proxy repository.

Shallow embedding of:
 - the Seedlink protocol client `SeedlinkProxy` (lib/seedlink-proxy.js):
   TCP connection lifecycle, ASCII command handshake, 520-byte record framing;
 - the dispatcher `SeedlinkOsc` (index.js): OSC message handling, the HOT.ALL
   umbrella channel, dynamic channel creation, the outbound data handler;
 - the TTL station registry `HotStations` (lib/hot-all.js).

JavaScript string-keyed objects are modelled as insertion-ordered association
lists with unique keys; Buffers as `List Nat` (byte lists); the opaque mSEED
decoder as a function parameter returning `Except` (an exception thrown by the
decoder is the `Except.error` case); socket and timer callbacks as explicit
events consumed by a step function, reflecting the single-threaded event model.
-/

set_option autoImplicit false

namespace SeedlinkData

/-! ### JS string primitives, modelled on character lists

`String.le`, `String.startsWith` and `String.splitOn` from core are
iterator-based and do not reduce well in the kernel, so the JS primitives
(`Array.prototype.sort` comparison, `String.prototype.indexOf(p) === 0`,
`String.prototype.split`, `Array.prototype.join`) are modelled directly on
the character lists underlying `String`. -/

/-- Lexicographic comparison of character lists by code point, as JS string
comparison orders strings (identical on the ASCII data used here). -/
def lexLe : List Char → List Char → Bool
  | [], _ => true
  | _ :: _, [] => false
  | a :: as, b :: bs =>
    if a.toNat < b.toNat then true
    else if b.toNat < a.toNat then false
    else lexLe as bs

/-- JS string comparison used by `Array.prototype.sort()` without arguments. -/
def strLe (a b : String) : Bool :=
  lexLe a.data b.data

/-- Insert into a sorted list, keeping it sorted (stable). -/
def insertSorted (x : String) : List String → List String
  | [] => [x]
  | y :: ys => if strLe x y then x :: y :: ys else y :: insertSorted x ys

/-- `Array.prototype.sort()` on an array of strings: sorts lexicographically. -/
def sortStrings : List String → List String
  | [] => []
  | x :: xs => insertSorted x (sortStrings xs)

/-- `Array.prototype.join(sep)`. -/
def joinWith (sep : String) : List String → String
  | [] => ""
  | [x] => x
  | x :: xs => x ++ sep ++ joinWith sep xs

/-- Character-list version of `indexOf(p) === 0` (prefix test). -/
def charsStartsWith : List Char → List Char → Bool
  | _, [] => true
  | [], _ :: _ => false
  | a :: as, b :: bs => a == b && charsStartsWith as bs

/-- `name.indexOf(p) === 0` for a non-empty pattern `p`: `name` starts with `p`. -/
def strStartsWith (s pat : String) : Bool :=
  charsStartsWith s.data pat.data

/-- `String.prototype.split(sep)` for a one-character separator. -/
def splitCharAux (sep : Char) : List Char → List Char → List (List Char)
  | [], acc => [acc.reverse]
  | c :: cs, acc =>
    if c == sep then acc.reverse :: splitCharAux sep cs []
    else splitCharAux sep cs (c :: acc)

/-- `str.split(sep)` for a one-character separator `sep`. -/
def splitChar (s : String) (sep : Char) : List String :=
  (splitCharAux sep s.data []).map String.mk

/-! ### Seedlink protocol client (lib/seedlink-proxy.js) -/

/-- One entry of a channel's `selectors` configuration list. -/
structure Selector where
  network : String
  station : String
  location : String
  channel : String
deriving DecidableEq

/-- One entry of `channel-config.json`. -/
structure ChannelConfig where
  name : String
  host : String
  port : Nat
  selectors : List Selector
deriving DecidableEq

/-- `SeedlinkProxy.prototype.convertCommand`: append CR LF to an ASCII command. -/
def convertCommand (command : String) : String :=
  command ++ "\r\n"

/-- `SeedlinkProxy.prototype.getStreamCommands`: starting from `['END']`, push
`'DATA'`, `'SELECT <loc><cha>'`, `'STATION <sta> <net>'` for each selector, then
convert every entry with `convertCommand`.  The list is drained from the back
(`Array.prototype.pop`) during the handshake. -/
def getStreamCommands (selectors : List Selector) : List String :=
  (selectors.foldl
    (fun commands stream =>
      commands ++
        ["DATA",
         "SELECT " ++ stream.location ++ stream.channel,
         "STATION " ++ stream.station ++ " " ++ stream.network])
    ["END"]).map convertCommand

/-- The structured sample object produced by `MSeedRecord(...).payload()` and
destructured by the dispatcher's handler in index.js. -/
structure DecodedRecord where
  network : String
  station : String
  location : String
  channel : String
  data : List Int
deriving DecidableEq

/-- A decoder for 512-byte record payloads (`libmseedjs`, opaque): returns the
structured sample object or throws (modelled as `Except.error`). -/
def Decoder : Type :=
  List Nat → Except String DecodedRecord

instance exceptDecEq {ε α : Type} [DecidableEq ε] [DecidableEq α] :
    DecidableEq (Except ε α)
  | Except.ok a, Except.ok b =>
    if h : a = b then Decidable.isTrue (by rw [h])
    else Decidable.isFalse (by intro hh; cases hh; exact h rfl)
  | Except.ok _, Except.error _ => Decidable.isFalse (by intro h; cases h)
  | Except.error _, Except.ok _ => Decidable.isFalse (by intro h; cases h)
  | Except.error a, Except.error b =>
    if h : a = b then Decidable.isTrue (by rw [h])
    else Decidable.isFalse (by intro hh; cases hh; exact h rfl)

/-- Observable actions of a `SeedlinkProxy` on its socket and subscriber. -/
inductive Output where
  /-- `socket.connect(port, host, ...)` was called. -/
  | connectAttempt
  /-- `socket.write(command)` of an ASCII command. -/
  | write (command : String)
  /-- `socket.destroy()` was called. -/
  | destroy
  /-- `broadcast` delivered a result to the subscriber handler:
  `Except.ok` models `handler(null, object)`, `Except.error` models
  `handler(object)` with an error object. -/
  | emit (result : Except String DecodedRecord)
  /-- A completion callback registered by `disconnect(cb)` was invoked;
  callbacks are labelled by numeric ids. -/
  | callback (id : Nat)
deriving DecidableEq

/-- Mutable state of one `SeedlinkProxy`:
`_connected`, the immutable `commands` template, the drained copy `_commands`
(`[]` before the first `connect()`, when it is still undefined and unread),
the closure-captured receive `buffer`, and the list of `'close'` listeners
registered by `disconnect(cb)` (`socket.on('close', cb)` is persistent). -/
structure ProxyState where
  connected : Bool
  commands : List String
  pending : List String
  buffer : List Nat
  closeListeners : List Nat
deriving DecidableEq

/-- `new SeedlinkProxy(options, handler)`: not connected, commands built from
the configured selectors. -/
def newSeedlinkProxy (options : ChannelConfig) : ProxyState :=
  { connected := false
    commands := getStreamCommands options.selectors
    pending := []
    buffer := []
    closeListeners := [] }

/-- `SEEDLINK_OK = convertCommand('OK')` as bytes: `O`, `K`, CR, LF. -/
def okBytes : List Nat :=
  [79, 75, 13, 10]

/-- `SeedlinkProxy.prototype.handshake`: pop the next command from the back of
`_commands` and write it to the socket. -/
def handshakeStep (s : ProxyState) : ProxyState × List Output :=
  match s.pending.getLast? with
  | some command => ({ s with pending := s.pending.dropLast }, [Output.write command])
  | none => (s, [])

/-- One iteration body of the framing loop: `new MSeedRecord(frame.slice(8,
520)).payload()` on a 520-byte frame, with the catch-all producing the fixed
error message. -/
def decodeFrame (decode : Decoder) (frame : List Nat) : Except String DecodedRecord :=
  match decode ((frame.take 520).drop 8) with
  | Except.ok message => Except.ok message
  | Except.error _ => Except.error "Error unpacking mSEED record"

/-- The `while (buffer.length >= SL_RECORD_SIZE)` framing loop, with explicit
fuel (any fuel at least `buffer.length` is enough, since every iteration
consumes 520 bytes).  Returns the remaining buffer and the broadcast results. -/
def processBufferAux (decode : Decoder) : Nat → List Nat → List Nat × List Output
  | 0, buffer => (buffer, [])
  | fuel + 1, buffer =>
    if 520 ≤ buffer.length then
      let out := Output.emit (decodeFrame decode buffer)
      let rest := processBufferAux decode fuel (buffer.drop 520)
      (rest.1, out :: rest.2)
    else (buffer, [])

/-- The framing loop run to completion on a buffer. -/
def processBuffer (decode : Decoder) (buffer : List Nat) : List Nat × List Output :=
  processBufferAux decode buffer.length buffer

/-- Events a `SeedlinkProxy` reacts to: method calls from the dispatcher and
socket events, serialized by the single-threaded event loop. -/
inductive Ev where
  /-- `proxy.connect()` called. -/
  | connect
  /-- The TCP `'connect'` event fired: the buffer is reset and the connect
  callback (`handshake`) sends the first command. -/
  | socketConnected
  /-- A `'data'` event with a chunk of bytes. -/
  | data (bytes : List Nat)
  /-- The `'close'` event fired. -/
  | close
  /-- `proxy.disconnect(cb)` called with callback id `id`. -/
  | disconnect (id : Nat)
  /-- The `'error'` event fired. -/
  | socketError

/-- One event handled by a `SeedlinkProxy`, straight from
`attachSeedlinkHandlers`, `connect` and `disconnect` in lib/seedlink-proxy.js. -/
def step (decode : Decoder) (s : ProxyState) : Ev → ProxyState × List Output
  | Ev.connect =>
    if s.connected then (s, [])
    else ({ s with connected := true, pending := s.commands }, [Output.connectAttempt])
  | Ev.socketConnected =>
    handshakeStep { s with buffer := [] }
  | Ev.data bytes =>
    if bytes = okBytes ∧ s.pending ≠ [] then
      handshakeStep s
    else
      let rest := processBuffer decode (s.buffer ++ bytes)
      ({ s with buffer := rest.1 }, rest.2)
  | Ev.close =>
    ({ s with connected := false }, s.closeListeners.map Output.callback)
  | Ev.disconnect id =>
    if s.connected then
      ({ s with connected := false, closeListeners := s.closeListeners ++ [id] },
       [Output.write "BYE\r\n", Output.destroy])
    else (s, [Output.callback id])
  | Ev.socketError =>
    (s, [Output.emit (Except.error "connection error")])

/-- Run a proxy over a sequence of events, collecting all outputs. -/
def run (decode : Decoder) (s : ProxyState) : List Ev → ProxyState × List Output
  | [] => (s, [])
  | e :: es =>
    let r₁ := step decode s e
    let r₂ := run decode r₁.1 es
    (r₂.1, r₁.2 ++ r₂.2)

/-! ### JS object operations on string-keyed maps

JS objects used as maps keep insertion order; assignment to an existing key
updates in place, assignment to a fresh key appends, `delete` removes. -/

/-- `obj[key]` on a string-keyed object. -/
def lookupKey {α : Type} : List (String × α) → String → Option α
  | [], _ => none
  | (k, v) :: rest, key => if k = key then some v else lookupKey rest key

/-- `obj[key] = v`: update in place if present, append otherwise. -/
def setKey {α : Type} : List (String × α) → String → α → List (String × α)
  | [], key, v => [(key, v)]
  | (k, v₀) :: rest, key, v =>
    if k = key then (key, v) :: rest else (k, v₀) :: setKey rest key v

/-- `delete obj[key]`. -/
def eraseKey {α : Type} : List (String × α) → String → List (String × α)
  | [], _ => []
  | (k, v) :: rest, key =>
    if k = key then eraseKey rest key else (k, v) :: eraseKey rest key

/-! ### Station registry (lib/hot-all.js) -/

/-- The `{net, sta, loc, channels}` object carried by a `new-station` IPC
event from the discovery feed. -/
structure Station where
  net : String
  sta : String
  loc : String
  channels : List String
deriving DecidableEq

/-- `HotStations.station2String`: the canonical station key, channels sorted
and joined with `,` before composing
`` `${net}.${sta}.${loc}:${channels.sort().join(',')}` ``. -/
def station2String (station : Station) : String :=
  station.net ++ "." ++ station.sta ++ "." ++ station.loc ++ ":" ++
    joinWith "," (sortStrings station.channels)

/-- Notifications emitted by the registry (`this.emit('add' | 'remove', key)`). -/
inductive HotEvent where
  | add (key : String)
  | remove (key : String)
deriving DecidableEq

/-- `HotStations.onNewStation`, at a call time of `now` milliseconds:
`isNewKey = !this.stations[key]` (also true for a stored `0`, by JS
falsiness), then the timestamp is stored; a fresh key additionally emits
`add`; an existing key is stored again.  Persistence (`storeInJson`) is
outside the model. -/
def onNewStation (stations : List (String × Nat)) (station : Station) (now : Nat) :
    List (String × Nat) × List HotEvent :=
  let key := station2String station
  let isNewKey : Bool :=
    match lookupKey stations key with
    | none => true
    | some time => time == 0
  let stations₁ := setKey stations key now
  if isNewKey then (stations₁, [HotEvent.add key])
  else (setKey stations₁ key now, [])

/-- `HotStations.cleaner`, at a sweep time of `now` milliseconds: collect the
keys whose `time + HOT_ALL_TIMEOUT < Date.now()`, then emit `remove` and
delete each.  Persistence is outside the model. -/
def cleaner (stations : List (String × Nat)) (timeout now : Nat) :
    List (String × Nat) × List HotEvent :=
  let toBeDeleted := (stations.map Prod.fst).filter (fun key =>
    match lookupKey stations key with
    | some time => decide (time + timeout < now)
    | none => false)
  (toBeDeleted.foldl eraseKey stations, toBeDeleted.map HotEvent.remove)

/-! ### Dispatcher (index.js) -/

/-- An element of an outbound OSC message (`node-osc` values). -/
inductive OscAtom where
  | str (s : String)
  | num (n : Int)
deriving DecidableEq

/-- The dispatcher's `this.handler` from `createSeedlinkProxies`: an error
result is logged and dropped (`console.error; return`); a decoded record is
sent to the OSC client as `['/geo', ident, ...data]` with
`ident = network_station_location_channel`.  `none` means nothing is sent. -/
def dispatchHandler (result : Except String DecodedRecord) : Option (List OscAtom) :=
  match result with
  | Except.error _ => none
  | Except.ok r =>
    some (OscAtom.str "/geo" ::
      OscAtom.str (r.network ++ "_" ++ r.station ++ "_" ++ r.location ++ "_" ++ r.channel) ::
      r.data.map OscAtom.num)

/-- The `{net, sta, loc, channels}` object returned by
`HotStations.string2Station` (`channels` is the unsplit string after `:`). -/
structure StationId where
  net : String
  sta : String
  loc : String
  channels : String
deriving DecidableEq

/-- `HotStations.string2Station`: split the key on `.` into
`[net, sta, rest]` and `rest` on `:` into `[loc, channels]`.  Missing parts
default to `""` (in JS they would be `undefined` on malformed keys, which
never arise from `station2String`). -/
def string2Station (stationStr : String) : StationId :=
  let parts := splitChar stationStr '.'
  let rest := parts.getD 2 ""
  let restParts := splitChar rest ':'
  { net := parts.getD 0 ""
    sta := parts.getD 1 ""
    loc := restParts.getD 0 ""
    channels := restParts.getD 1 "" }

/-- `SeedlinkOsc.prototype.station2channel`: synthesize a dynamic channel
config from the HOT.ALL template and a station key:
`name = 'HOT.ALL.' + stationStr` and a single selector with the fixed
wildcard channel pattern `'BH?'`. -/
def station2channel (template : ChannelConfig) (stationStr : String) : ChannelConfig :=
  let station := string2Station stationStr
  { template with
    name := "HOT.ALL." ++ stationStr
    selectors := [{ network := station.net
                    station := station.sta
                    channel := "BH?"
                    location := station.loc }] }

/-- A decoder value for contexts where no data event can use it. -/
def nullDecoder : Decoder :=
  fun _ => Except.error "unused"

/-- `proxy.connect()` as a state transformer (the data path is untouched). -/
def connectCall (p : ProxyState) : ProxyState :=
  (step nullDecoder p Ev.connect).1

/-- `proxy.disconnect(() => {})` as a state transformer (the no-op callback
is labelled 0). -/
def disconnectCall (p : ProxyState) : ProxyState :=
  (step nullDecoder p (Ev.disconnect 0)).1

/-- Dispatcher state: the `this.channels` table, the HOT.ALL template from
channel-config.json (`this.hotAllChannel`), and
`this.hotAllChannelSubscribed`. -/
structure DispatchState where
  channels : List (String × ProxyState)
  hotAllChannel : Option ChannelConfig
  hotAllSubscribed : Bool

/-- The OSC server `'message'` listener from `createOscServerListener`:
drop messages of length ≤ 1 or with an empty/unknown target; for target
`'HOT.ALL'` record the subscription flag and resolve to every channel whose
name starts with `'HOT.ALL'`; otherwise resolve to the single named channel;
then `connect()` on subscribe, `disconnect()` on unsubscribe. -/
def onMessage (st : DispatchState) (msg : List String) : DispatchState :=
  if msg.length ≤ 1 then st
  else
    let path := msg.getD 0 ""
    let channel := msg.getD 1 ""
    if channel = "" ∨ ((lookupKey st.channels channel).isNone ∧ channel ≠ "HOT.ALL") then st
    else
      let isSubscribe := path = "/subscribe"
      let isUnsubscribe := path = "/unsubscribe"
      let st₁ :=
        if channel = "HOT.ALL" then { st with hotAllSubscribed := isSubscribe } else st
      let targets : List String :=
        if channel = "HOT.ALL" then
          (st₁.channels.map Prod.fst).filter (fun name => strStartsWith name "HOT.ALL")
        else [channel]
      if isSubscribe then
        { st₁ with channels := st₁.channels.map (fun np =>
            if np.1 ∈ targets then (np.1, connectCall np.2) else np) }
      else if isUnsubscribe then
        { st₁ with channels := st₁.channels.map (fun np =>
            if np.1 ∈ targets then (np.1, disconnectCall np.2) else np) }
      else st₁

/-- `SeedlinkOsc.prototype.onHotStationAdd`: on a registry `add`, create the
derived channel's proxy if absent, and `connect()` it immediately when
HOT.ALL is currently subscribed.  The listener is only attached when a
HOT.ALL template exists. -/
def onHotStationAdd (st : DispatchState) (stationStr : String) : DispatchState :=
  match st.hotAllChannel with
  | none => st
  | some template =>
    let cfg := station2channel template stationStr
    match lookupKey st.channels cfg.name with
    | some _ => st
    | none =>
      let proxy := newSeedlinkProxy cfg
      let proxy := if st.hotAllSubscribed then connectCall proxy else proxy
      { st with channels := st.channels ++ [(cfg.name, proxy)] }

/-- `SeedlinkOsc.prototype.onHotStationRemove`: on a registry `remove`,
disconnect the derived channel's proxy when HOT.ALL is subscribed, and drop
it from the table unconditionally (when present). -/
def onHotStationRemove (st : DispatchState) (stationStr : String) : DispatchState :=
  match st.hotAllChannel with
  | none => st
  | some template =>
    let cfg := station2channel template stationStr
    match lookupKey st.channels cfg.name with
    | none => st
    | some proxy =>
      let channels :=
        if st.hotAllSubscribed then setKey st.channels cfg.name (disconnectCall proxy)
        else st.channels
      { st with channels := eraseKey channels cfg.name }

/-! ### Claim-side descriptions, to be compared with runs of the model -/

/-- The per-selector command triad in transmitted form:
`STATION <station> <network>`, `SELECT <location><channel>`, `DATA`,
each CR-LF-terminated. -/
def cmdTriad (s : Selector) : List String :=
  ["STATION " ++ s.station ++ " " ++ s.network ++ "\r\n",
   "SELECT " ++ s.location ++ s.channel ++ "\r\n",
   "DATA\r\n"]

/-- The full command sequence a fully-acknowledged handshake transmits:
one triad per selector (selectors in reverse declared order, by the
push/pop queue discipline) and `END` last. -/
def transmittedCommands (selectors : List Selector) : List String :=
  selectors.reverse.flatMap cmdTriad ++ ["END\r\n"]

/-- The successive complete 520-byte frames of a byte stream. -/
def frames520 (bytes : List Nat) : List (List Nat) :=
  (List.range (bytes.length / 520)).map (fun i => (bytes.drop (520 * i)).take 520)

/-- The event trace of a fully-acknowledged handshake: `connect()`, the TCP
connect event, then `n` acknowledgment chunks `OK` CR LF from the server. -/
def fullyAckedTrace (n : Nat) : List Ev :=
  Ev.connect :: Ev.socketConnected :: List.replicate n (Ev.data okBytes)

/-! ## Lemmas -/

theorem run_nil (decode : Decoder) (s : ProxyState) : run decode s [] = (s, []) :=
  rfl

theorem run_cons (decode : Decoder) (s : ProxyState) (e : Ev) (es : List Ev) :
    run decode s (e :: es) =
      ((run decode (step decode s e).1 es).1,
       (step decode s e).2 ++ (run decode (step decode s e).1 es).2) :=
  rfl

theorem proxyState_eta (s : ProxyState) (h : s.pending = []) :
    { s with pending := [] } = s := by
  cases s
  simp_all

/-! ## Claim C1 -/

/-- Claim C1 as frozen is false on the code: the dispatcher's handler drops a
per-record decode error (`console.error; return`), forwarding nothing to the
OSC client, at the explicit input of the fixed per-record decode error object. -/
theorem c1_counterexample :
    dispatchHandler (Except.error "Error unpacking mSEED record") = none :=
  rfl

/-- Claim C1 (amended): a successfully decoded record delivered to the
dispatcher's handler is forwarded as the outbound message
`['/geo', network_station_location_channel, ...data]`; a per-record decode
error is logged and not forwarded. -/
theorem c1_forwarding (r : DecodedRecord) (e : String) :
    dispatchHandler (Except.ok r) =
      some (OscAtom.str "/geo" ::
        OscAtom.str (r.network ++ "_" ++ r.station ++ "_" ++ r.location ++ "_" ++ r.channel) ::
        r.data.map OscAtom.num) ∧
    dispatchHandler (Except.error e) = none :=
  ⟨rfl, rfl⟩

/-! ## Claim C8 -/

/-- Claim C8: calling `connect()` a second time without an intervening
`disconnect()` has no additional observable effect — the run with a second
`connect()` event has exactly the same final state (in particular the same
command queue) and the same outputs (no second connection attempt). -/
theorem c8_connect_idempotent (decode : Decoder) (s : ProxyState) :
    run decode s [Ev.connect, Ev.connect] = run decode s [Ev.connect] := by
  by_cases hc : s.connected <;>
    simp [run, step, hc]

/-! ## Claim C7 -/

/-- Claim C7: `disconnect(cb)` on a proxy that is not connected invokes the
callback immediately with no network activity (no write, no destroy, no
connection attempt); on a connected proxy it marks the proxy not-connected,
writes `BYE` CR LF, destroys the socket, and the callback fires only at the
subsequent close event. -/
theorem c7_disconnect (decode : Decoder) (s s' : ProxyState) (id : Nat)
    (h₁ : s.connected = false)
    (h₂ : s'.connected = true) (h₃ : s'.closeListeners = []) :
    run decode s [Ev.disconnect id] = (s, [Output.callback id]) ∧
    run decode s' [Ev.disconnect id, Ev.close] =
      ({ s' with connected := false, closeListeners := [id] },
       [Output.write "BYE\r\n", Output.destroy, Output.callback id]) := by
  constructor
  · simp [run, step, h₁]
  · simp [run, step, h₂, h₃]

/-- Witness for C7 at a concrete never-connected proxy and a concrete
connected proxy. -/
theorem c7_disconnect_witness :
    run nullDecoder
        (newSeedlinkProxy { name := "NL.HGN", host := "h", port := 18000, selectors := [] })
        [Ev.disconnect 7] =
      (newSeedlinkProxy { name := "NL.HGN", host := "h", port := 18000, selectors := [] },
       [Output.callback 7]) ∧
    run nullDecoder
        { connected := true, commands := [], pending := [], buffer := [], closeListeners := [] }
        [Ev.disconnect 7, Ev.close] =
      ({ connected := false, commands := [], pending := [], buffer := [],
         closeListeners := [7] },
       [Output.write "BYE\r\n", Output.destroy, Output.callback 7]) :=
  c7_disconnect nullDecoder
    (newSeedlinkProxy { name := "NL.HGN", host := "h", port := 18000, selectors := [] })
    { connected := true, commands := [], pending := [], buffer := [], closeListeners := [] }
    7 rfl rfl rfl

/-! ## Claim C10 -/

/-- Claim C10: completion callbacks registered by connected `disconnect(cb)`
calls accumulate as persistent close listeners.  Over two
connect/disconnect cycles the first callback (id 1) fires at both close
events, and the second close invokes `[1, 2]`.  In general a connected
`disconnect(id)` appends `id` to the close-listener list and a close event
invokes every registered listener. -/
theorem c10_callbacks_accumulate (decode : Decoder) (s : ProxyState)
    (h₁ : s.connected = true) (h₂ : s.closeListeners = []) :
    run decode s [Ev.disconnect 1, Ev.close, Ev.connect, Ev.disconnect 2, Ev.close] =
      ({ s with connected := false, pending := s.commands, closeListeners := [1, 2] },
       [Output.write "BYE\r\n", Output.destroy, Output.callback 1,
        Output.connectAttempt, Output.write "BYE\r\n", Output.destroy,
        Output.callback 1, Output.callback 2]) ∧
    (∀ (t : ProxyState) (id : Nat), t.connected = true →
      (step decode t (Ev.disconnect id)).1.closeListeners = t.closeListeners ++ [id]) ∧
    (∀ t : ProxyState, (step decode t Ev.close).2 = t.closeListeners.map Output.callback) := by
  refine ⟨?_, ?_, ?_⟩
  · simp [run, step, h₁, h₂]
  · intro t id ht
    simp [step, ht]
  · intro t
    simp [step]

/-- Witness for C10 at a concrete initially-connected proxy. -/
theorem c10_callbacks_accumulate_witness :
    run nullDecoder
        { connected := true, commands := ["END\r\n"], pending := [], buffer := [],
          closeListeners := [] }
        [Ev.disconnect 1, Ev.close, Ev.connect, Ev.disconnect 2, Ev.close] =
      ({ connected := false, commands := ["END\r\n"], pending := ["END\r\n"], buffer := [],
         closeListeners := [1, 2] },
       [Output.write "BYE\r\n", Output.destroy, Output.callback 1,
        Output.connectAttempt, Output.write "BYE\r\n", Output.destroy,
        Output.callback 1, Output.callback 2]) :=
  (c10_callbacks_accumulate nullDecoder
    { connected := true, commands := ["END\r\n"], pending := [], buffer := [],
      closeListeners := [] } rfl rfl).1

/-! ## Claim C2 -/

theorem foldl_append_flatMap {α β : Type} (l : List α) (f : α → List β) (init : List β) :
    l.foldl (fun acc x => acc ++ f x) init = init ++ l.flatMap f := by
  induction l generalizing init with
  | nil => simp
  | cons a l ih => simp [ih, List.flatMap_cons]

theorem reverse_flatMap {α β : Type} (l : List α) (f : α → List β) :
    (l.flatMap f).reverse = l.reverse.flatMap (fun x => (f x).reverse) := by
  induction l with
  | nil => simp
  | cons a l ih => simp [List.flatMap_cons, List.flatMap_append, ih]

theorem getStreamCommands_eq (selectors : List Selector) :
    getStreamCommands selectors =
      convertCommand "END" ::
        selectors.flatMap (fun s =>
          [convertCommand "DATA",
           convertCommand ("SELECT " ++ s.location ++ s.channel),
           convertCommand ("STATION " ++ s.station ++ " " ++ s.network)]) := by
  unfold getStreamCommands
  rw [foldl_append_flatMap selectors _ ["END"]]
  simp [List.map_flatMap]

theorem getStreamCommands_reverse (selectors : List Selector) :
    (getStreamCommands selectors).reverse = transmittedCommands selectors := by
  rw [getStreamCommands_eq]
  simp only [List.reverse_cons, reverse_flatMap, transmittedCommands]
  rfl

theorem transmittedCommands_length (selectors : List Selector) :
    (transmittedCommands selectors).length = 3 * selectors.length + 1 := by
  unfold transmittedCommands
  have h : ∀ l : List Selector, (l.flatMap cmdTriad).length = 3 * l.length := by
    intro l
    induction l with
    | nil => simp
    | cons a l ih => simp [List.flatMap_cons, ih, cmdTriad]; ring
  simp [h, List.length_reverse]

/-- Draining the handshake queue: if the pending queue is `m.reverse`, then
`m.length` acknowledgment chunks pop and write the commands of `m` in order. -/
theorem run_handshake_drain (decode : Decoder) (m : List String) :
    ∀ s : ProxyState, s.pending = m.reverse →
      run decode s (List.replicate m.length (Ev.data okBytes)) =
        ({ s with pending := [] }, m.map Output.write) := by
  induction m with
  | nil =>
    intro s hs
    simp at hs
    simp [run, proxyState_eta s hs]
  | cons a m ih =>
    intro s hs
    have hne : s.pending ≠ [] := by
      rw [hs]
      simp
    have hguard : step decode s (Ev.data okBytes) = handshakeStep s := by
      simp only [step]
      rw [if_pos ⟨trivial, hne⟩]
    have hstep : step decode s (Ev.data okBytes) =
        ({ s with pending := m.reverse }, [Output.write a]) := by
      rw [hguard]
      simp [handshakeStep, hs, List.getLast?_concat, List.dropLast_concat]
    rw [List.length_cons, List.replicate_succ, run_cons, hstep]
    rw [ih { s with pending := m.reverse } rfl]
    simp

/-- The socket connect event (which resets the buffer and sends the first
command) followed by `m.length - 1` acknowledgments transmits all of `m`. -/
theorem run_full_handshake (decode : Decoder) (a : String) (m : List String)
    (s : ProxyState) (hs : s.pending = (a :: m).reverse) :
    run decode s (Ev.socketConnected :: List.replicate m.length (Ev.data okBytes)) =
      ({ s with pending := [], buffer := [] }, (a :: m).map Output.write) := by
  have hstep : step decode s Ev.socketConnected =
      ({ s with buffer := [], pending := m.reverse }, [Output.write a]) := by
    simp only [step, handshakeStep, hs, List.reverse_cons, List.getLast?_concat,
      List.dropLast_concat]
  rw [run_cons, hstep]
  rw [run_handshake_drain decode m { s with buffer := [], pending := m.reverse } rfl]
  simp

/-- Claim C2: for every selector list a fully-acknowledged handshake from a
fresh proxy transmits, after the connection attempt, exactly the commands of
`transmittedCommands`: the triad (STATION, SELECT, DATA) per selector with
END last; there are exactly `3 * N + 1` of them and each is CR-LF-terminated
ASCII; for the single selector NL/HGN//BHZ the transmitted sequence is
exactly STATION HGN NL, SELECT BHZ, DATA, END. -/
theorem c2_handshake_commands (decode : Decoder) (cfg : ChannelConfig) :
    (run decode (newSeedlinkProxy cfg)
        (fullyAckedTrace (3 * cfg.selectors.length))).2 =
      Output.connectAttempt :: (transmittedCommands cfg.selectors).map Output.write ∧
    (transmittedCommands cfg.selectors).length = 3 * cfg.selectors.length + 1 ∧
    (∀ c ∈ transmittedCommands cfg.selectors, ∃ stem, c = stem ++ "\r\n") ∧
    (run nullDecoder
        (newSeedlinkProxy
          { name := "NL.HGN", host := "h", port := 18000,
            selectors := [{ network := "NL", station := "HGN", location := "", channel := "BHZ" }] })
        (fullyAckedTrace 3)).2 =
      [Output.connectAttempt,
       Output.write "STATION HGN NL\r\n", Output.write "SELECT BHZ\r\n",
       Output.write "DATA\r\n", Output.write "END\r\n"] := by
  refine ⟨?_, transmittedCommands_length cfg.selectors, ?_, ?_⟩
  · have hrev : (newSeedlinkProxy cfg).commands = (transmittedCommands cfg.selectors).reverse := by
      rw [← getStreamCommands_reverse cfg.selectors]
      simp [newSeedlinkProxy]
    obtain ⟨a, m, hm⟩ :=
      List.exists_cons_of_ne_nil (l := transmittedCommands cfg.selectors)
        (by unfold transmittedCommands; simp)
    have hlen : m.length = 3 * cfg.selectors.length := by
      have h := transmittedCommands_length cfg.selectors
      rw [hm] at h
      simpa using h
    have hconnect : step decode (newSeedlinkProxy cfg) Ev.connect =
        ({ connected := true, commands := getStreamCommands cfg.selectors,
           pending := (a :: m).reverse, buffer := [], closeListeners := [] },
         [Output.connectAttempt]) := by
      have hp : getStreamCommands cfg.selectors = (a :: m).reverse := by
        rw [← getStreamCommands_reverse cfg.selectors] at hm
        rw [← hm, List.reverse_reverse]
      simp [step, newSeedlinkProxy, hp]
    rw [fullyAckedTrace, run_cons, hconnect, ← hlen]
    rw [run_full_handshake decode a m _ rfl]
    simp [hm]
  · intro c hc
    unfold transmittedCommands at hc
    rcases List.mem_append.mp hc with h | h
    · obtain ⟨sel, _, hsel⟩ := List.mem_flatMap.mp h
      simp only [cmdTriad, List.mem_cons, List.not_mem_nil, or_false] at hsel
      rcases hsel with h₁ | h₁ | h₁
      · exact ⟨"STATION " ++ sel.station ++ " " ++ sel.network, h₁⟩
      · exact ⟨"SELECT " ++ sel.location ++ sel.channel, h₁⟩
      · exact ⟨"DATA", h₁⟩
    · simp at h
      exact ⟨"END", by rw [h]; rfl⟩
  · decide

/-- Witness for C2 at the concrete single-selector configuration. -/
theorem c2_handshake_commands_witness :
    (run nullDecoder
        (newSeedlinkProxy
          { name := "NL.HGN", host := "h", port := 18000,
            selectors := [{ network := "NL", station := "HGN", location := "", channel := "BHZ" }] })
        (fullyAckedTrace
          (3 * [({ network := "NL", station := "HGN", location := "", channel := "BHZ" } : Selector)].length))).2 =
      Output.connectAttempt ::
        (transmittedCommands
          [{ network := "NL", station := "HGN", location := "", channel := "BHZ" }]).map
          Output.write :=
  (c2_handshake_commands nullDecoder
    { name := "NL.HGN", host := "h", port := 18000,
      selectors := [{ network := "NL", station := "HGN", location := "", channel := "BHZ" }] }).1

/-! ## Claims C3 and C9: framing -/

theorem decodeFrame_take (decode : Decoder) (bytes : List Nat) :
    decodeFrame decode (bytes.take 520) = decodeFrame decode bytes := by
  unfold decodeFrame
  rw [List.take_take, min_self]

theorem frames520_cons (bytes : List Nat) (h : 520 ≤ bytes.length) :
    frames520 bytes = bytes.take 520 :: frames520 (bytes.drop 520) := by
  unfold frames520
  have hlen : (bytes.drop 520).length = bytes.length - 520 := by simp
  have hdiv : bytes.length / 520 = (bytes.length - 520) / 520 + 1 :=
    Nat.div_eq_sub_div (by norm_num) h
  rw [hlen, hdiv, List.range_succ_eq_map, List.map_cons, List.map_map]
  refine congrArg₂ List.cons (by simp) (List.map_congr_left ?_)
  intro i _
  simp only [Function.comp]
  rw [List.drop_drop]
  have harith : 520 * Nat.succ i = 520 + 520 * i := by omega
  rw [harith]

theorem frames520_small (bytes : List Nat) (h : bytes.length < 520) :
    frames520 bytes = [] := by
  unfold frames520
  rw [Nat.div_eq_of_lt h]
  rfl

theorem frames520_length (bytes : List Nat) :
    (frames520 bytes).length = bytes.length / 520 := by
  simp [frames520]

theorem processBufferAux_spec (decode : Decoder) :
    ∀ (fuel : Nat) (bytes : List Nat), bytes.length ≤ fuel →
      processBufferAux decode fuel bytes =
        (bytes.drop (520 * (bytes.length / 520)),
         (frames520 bytes).map (fun frame => Output.emit (decodeFrame decode frame))) := by
  intro fuel
  induction fuel with
  | zero =>
    intro bytes hb
    have hnil : bytes = [] := List.eq_nil_of_length_eq_zero (Nat.le_zero.mp hb)
    subst hnil
    simp [processBufferAux, frames520]
  | succ fuel ih =>
    intro bytes hb
    by_cases h : 520 ≤ bytes.length
    · have hrec := ih (bytes.drop 520) (by simp; omega)
      have hdiv : bytes.length / 520 = (bytes.length - 520) / 520 + 1 :=
        Nat.div_eq_sub_div (by norm_num) h
      have hlen : (bytes.drop 520).length = bytes.length - 520 := by simp
      simp only [processBufferAux, if_pos h, hrec]
      rw [frames520_cons bytes h, List.map_cons, decodeFrame_take, hlen,
        List.drop_drop, hdiv]
      have harith : 520 + 520 * ((bytes.length - 520) / 520)
          = 520 * ((bytes.length - 520) / 520 + 1) := by ring
      rw [harith]
    · simp only [processBufferAux, if_neg h]
      rw [Nat.div_eq_of_lt (by omega), frames520_small bytes (by omega)]
      simp

theorem processBuffer_spec (decode : Decoder) (bytes : List Nat) :
    processBuffer decode bytes =
      (bytes.drop (520 * (bytes.length / 520)),
       (frames520 bytes).map (fun frame => Output.emit (decodeFrame decode frame))) :=
  processBufferAux_spec decode bytes.length bytes le_rfl

theorem processBuffer_rest_length (decode : Decoder) (bytes : List Nat) :
    (processBuffer decode bytes).1.length = bytes.length % 520 := by
  rw [processBuffer_spec]
  have h := Nat.div_add_mod bytes.length 520
  simp only [List.length_drop]
  omega

theorem processBuffer_small (decode : Decoder) (bytes : List Nat) (h : bytes.length < 520) :
    processBuffer decode bytes = (bytes, []) := by
  rw [processBuffer_spec, Nat.div_eq_of_lt h, frames520_small bytes h]
  simp

theorem processBuffer_step (decode : Decoder) (bytes : List Nat) (h : 520 ≤ bytes.length) :
    processBuffer decode bytes =
      ((processBuffer decode (bytes.drop 520)).1,
       Output.emit (decodeFrame decode bytes) :: (processBuffer decode (bytes.drop 520)).2) := by
  rw [processBuffer_spec, processBuffer_spec, frames520_cons bytes h, List.map_cons,
    decodeFrame_take]
  have hlen : (bytes.drop 520).length = bytes.length - 520 := by simp
  have hdiv : bytes.length / 520 = (bytes.length - 520) / 520 + 1 :=
    Nat.div_eq_sub_div (by norm_num) h
  rw [hlen, List.drop_drop, hdiv]
  have harith : 520 + 520 * ((bytes.length - 520) / 520)
      = 520 * ((bytes.length - 520) / 520 + 1) := by ring
  rw [harith]

/-- The framing loop is compositional: processing `x ++ y` is processing `x`,
then processing the retained remainder of `x` followed by `y`. -/
theorem processBuffer_append (decode : Decoder) (x y : List Nat) :
    processBuffer decode (x ++ y) =
      ((processBuffer decode ((processBuffer decode x).1 ++ y)).1,
       (processBuffer decode x).2 ++
         (processBuffer decode ((processBuffer decode x).1 ++ y)).2) := by
  by_cases h : 520 ≤ x.length
  · have hxy : 520 ≤ (x ++ y).length := by simp; omega
    have hdrop : (x ++ y).drop 520 = x.drop 520 ++ y := List.drop_append_of_le_length h
    have hframe : decodeFrame decode (x ++ y) = decodeFrame decode x := by
      unfold decodeFrame
      rw [List.take_append_of_le_length h]
    have ih := processBuffer_append decode (x.drop 520) y
    rw [processBuffer_step decode (x ++ y) hxy, hdrop, hframe,
      processBuffer_step decode x h, ih]
    simp
  · rw [processBuffer_small decode x (by omega)]
    simp
termination_by x.length
decreasing_by simp; omega

/-- Streaming-mode runs: with the handshake queue exhausted and a buffer
shorter than one frame, a sequence of data events behaves like the framing
loop on the concatenation of the buffer and all chunks; acknowledgment-shaped
chunks have no special meaning once the queue is empty. -/
theorem run_streaming (decode : Decoder) :
    ∀ (chunks : List (List Nat)) (s : ProxyState),
      s.pending = [] → s.buffer.length < 520 →
      run decode s (chunks.map Ev.data) =
        ({ s with buffer := (processBuffer decode (s.buffer ++ chunks.flatten)).1 },
         (processBuffer decode (s.buffer ++ chunks.flatten)).2) := by
  intro chunks
  induction chunks with
  | nil =>
    intro s hp hb
    rw [List.map_nil, run_nil, List.flatten_nil, List.append_nil,
      processBuffer_small decode s.buffer hb]
  | cons d ds ih =>
    intro s hp hb
    have hstep : step decode s (Ev.data d) =
        ({ s with buffer := (processBuffer decode (s.buffer ++ d)).1 },
         (processBuffer decode (s.buffer ++ d)).2) := by
      simp only [step]
      rw [if_neg (fun hc => hc.2 hp)]
    have hblen : (processBuffer decode (s.buffer ++ d)).1.length < 520 := by
      rw [processBuffer_rest_length]
      exact Nat.mod_lt _ (by norm_num)
    rw [List.map_cons, run_cons, hstep,
      ih { s with buffer := (processBuffer decode (s.buffer ++ d)).1 } hp hblen]
    have happ := processBuffer_append decode (s.buffer ++ d) ds.flatten
    simp only [List.flatten_cons, ← List.append_assoc, happ]

/-- Claim C3: feeding chunks totalling `N * 520 + R` bytes (`R < 520`) to a
proxy in streaming mode (handshake queue exhausted, buffer empty) emits
exactly `N` broadcast results — one per 520-byte frame, each the decode of
that frame (success or the per-record error), for an arbitrary decoder —
retains exactly the trailing `R` bytes in the buffer, and neither changes
the connected flag nor how frames are sliced. -/
theorem c3_framing (decode : Decoder) (s : ProxyState) (chunks : List (List Nat))
    (N R : Nat) (hp : s.pending = []) (hb : s.buffer = [])
    (hR : R < 520) (hlen : chunks.flatten.length = N * 520 + R) :
    (run decode s (chunks.map Ev.data)).2 =
      (frames520 chunks.flatten).map (fun frame => Output.emit (decodeFrame decode frame)) ∧
    (run decode s (chunks.map Ev.data)).2.length = N ∧
    (run decode s (chunks.map Ev.data)).1.buffer = chunks.flatten.drop (N * 520) ∧
    (run decode s (chunks.map Ev.data)).1.buffer.length = R ∧
    (run decode s (chunks.map Ev.data)).1.connected = s.connected ∧
    (run decode s (chunks.map Ev.data)).1.pending = [] := by
  have hdiv : chunks.flatten.length / 520 = N := by
    rw [hlen, Nat.mul_comm, Nat.mul_add_div (by norm_num), Nat.div_eq_of_lt hR,
      Nat.add_zero]
  have hrun := run_streaming decode chunks s hp (by rw [hb]; simp)
  rw [hb, List.nil_append] at hrun
  have hpb := processBuffer_spec decode chunks.flatten
  have hpb1 : (processBuffer decode chunks.flatten).1 = chunks.flatten.drop (N * 520) := by
    rw [hpb, hdiv, Nat.mul_comm]
  have hpb2 : (processBuffer decode chunks.flatten).2 =
      (frames520 chunks.flatten).map (fun frame => Output.emit (decodeFrame decode frame)) := by
    rw [hpb]
  refine ⟨?_, ?_, ?_, ?_, ?_, ?_⟩
  · rw [hrun, hpb2]
  · rw [hrun]
    show (processBuffer decode chunks.flatten).2.length = N
    rw [hpb2, List.length_map, frames520_length, hdiv]
  · rw [hrun]
    show (processBuffer decode chunks.flatten).1 = _
    rw [hpb1]
  · rw [hrun]
    show (processBuffer decode chunks.flatten).1.length = R
    rw [hpb1, List.length_drop, hlen]
    omega
  · rw [hrun]
  · rw [hrun]
    exact hp

/-- Witness for C3: one 520-byte chunk gives exactly one decode attempt and
an empty retained buffer. -/
theorem c3_framing_witness :
    (run nullDecoder
        { connected := true, commands := [], pending := [], buffer := [], closeListeners := [] }
        ([List.replicate 520 0].map Ev.data)).2 =
      (frames520 [List.replicate 520 0].flatten).map
        (fun frame => Output.emit (decodeFrame nullDecoder frame)) ∧
    (run nullDecoder
        { connected := true, commands := [], pending := [], buffer := [], closeListeners := [] }
        ([List.replicate 520 0].map Ev.data)).2.length = 1 ∧
    (run nullDecoder
        { connected := true, commands := [], pending := [], buffer := [], closeListeners := [] }
        ([List.replicate 520 0].map Ev.data)).1.buffer =
      [List.replicate 520 0].flatten.drop (1 * 520) ∧
    (run nullDecoder
        { connected := true, commands := [], pending := [], buffer := [], closeListeners := [] }
        ([List.replicate 520 0].map Ev.data)).1.buffer.length = 0 ∧
    (run nullDecoder
        { connected := true, commands := [], pending := [], buffer := [], closeListeners := [] }
        ([List.replicate 520 0].map Ev.data)).1.connected =
      ({ connected := true, commands := [], pending := [], buffer := [],
         closeListeners := [] } : ProxyState).connected ∧
    (run nullDecoder
        { connected := true, commands := [], pending := [], buffer := [], closeListeners := [] }
        ([List.replicate 520 0].map Ev.data)).1.pending = [] :=
  c3_framing nullDecoder
    { connected := true, commands := [], pending := [], buffer := [], closeListeners := [] }
    [List.replicate 520 0] 1 0 rfl rfl (by norm_num)
    (by simp only [List.flatten_cons, List.flatten_nil, List.append_nil,
      List.length_replicate])

/-- Claim C9: once the handshake queue is empty, an inbound chunk equal to
the literal acknowledgment `OK` CR LF is not consumed as an acknowledgment:
its 4 bytes are appended to the receive buffer (no command write, no
broadcast), and a following 516-byte chunk completes a 520-byte frame that
begins with those 4 bytes — all later frame boundaries are shifted by 4. -/
theorem c9_ok_joins_buffer (decode : Decoder) (s : ProxyState) (d : List Nat)
    (hp : s.pending = []) (hb : s.buffer = []) (hd : d.length = 516) :
    run decode s [Ev.data okBytes] = ({ s with buffer := okBytes }, []) ∧
    run decode s [Ev.data okBytes, Ev.data d] =
      ({ s with buffer := [] },
       [Output.emit (decodeFrame decode (okBytes ++ d))]) := by
  have hlen : (okBytes ++ d).length = 520 := by
    simp [okBytes, hd]
  have hdropall : (okBytes ++ d).drop 520 = [] := by
    have h := List.drop_length (okBytes ++ d)
    rw [hlen] at h
    exact h
  constructor
  · have h₁ := run_streaming decode [okBytes] s hp (by rw [hb]; simp)
    simp only [List.map_cons, List.map_nil, List.flatten_cons, List.flatten_nil,
      List.append_nil, hb, List.nil_append] at h₁
    rw [h₁, processBuffer_small decode okBytes (by simp [okBytes])]
  · have h₂ := run_streaming decode [okBytes, d] s hp (by rw [hb]; simp)
    simp only [List.map_cons, List.map_nil, List.flatten_cons, List.flatten_nil,
      List.append_nil, hb, List.nil_append] at h₂
    rw [h₂, processBuffer_step decode (okBytes ++ d) (by omega),
      hdropall, processBuffer_small decode [] (by norm_num)]

/-- Witness for C9 at a concrete 516-byte completion chunk. -/
theorem c9_ok_joins_buffer_witness :
    run nullDecoder
        { connected := true, commands := [], pending := [], buffer := [], closeListeners := [] }
        [Ev.data okBytes] =
      ({ connected := true, commands := [], pending := [], buffer := okBytes,
         closeListeners := [] }, []) ∧
    run nullDecoder
        { connected := true, commands := [], pending := [], buffer := [], closeListeners := [] }
        [Ev.data okBytes, Ev.data (List.replicate 516 7)] =
      ({ connected := true, commands := [], pending := [], buffer := [],
         closeListeners := [] },
       [Output.emit (decodeFrame nullDecoder (okBytes ++ List.replicate 516 7))]) :=
  c9_ok_joins_buffer nullDecoder
    { connected := true, commands := [], pending := [], buffer := [], closeListeners := [] }
    (List.replicate 516 7) rfl rfl (by rw [List.length_replicate])

/-! ## Claims C4 and C5: station registry -/

theorem lookupKey_setKey_self {α : Type} (l : List (String × α)) (k : String) (v : α) :
    lookupKey (setKey l k v) k = some v := by
  induction l with
  | nil => simp [setKey, lookupKey]
  | cons kv rest ih =>
    obtain ⟨k₁, v₁⟩ := kv
    by_cases h : k₁ = k <;> simp [setKey, lookupKey, h, ih]

/-- Claim C4: two discovery events whose descriptions normalize to the same
station key (channels sorted and joined), the first on a fresh key: the
first inserts the key with its call-time timestamp and emits exactly one
`add`; the second emits nothing and refreshes the timestamp; neither emits a
`remove`. -/
theorem c4_observe_twice (stations : List (String × Nat)) (s₁ s₂ : Station)
    (t₁ t₂ : Nat)
    (hkey : station2String s₂ = station2String s₁)
    (hfresh : lookupKey stations (station2String s₁) = none)
    (ht : t₁ ≠ 0) :
    (onNewStation stations s₁ t₁).2 = [HotEvent.add (station2String s₁)] ∧
    lookupKey (onNewStation stations s₁ t₁).1 (station2String s₁) = some t₁ ∧
    (onNewStation (onNewStation stations s₁ t₁).1 s₂ t₂).2 = [] ∧
    lookupKey (onNewStation (onNewStation stations s₁ t₁).1 s₂ t₂).1
      (station2String s₁) = some t₂ := by
  have hfirst : onNewStation stations s₁ t₁ =
      (setKey stations (station2String s₁) t₁, [HotEvent.add (station2String s₁)]) := by
    simp [onNewStation, hfresh]
  have hlook : lookupKey (setKey stations (station2String s₁) t₁) (station2String s₁) =
      some t₁ := lookupKey_setKey_self stations (station2String s₁) t₁
  have hbeq : (t₁ == 0) = false := by
    simp [ht]
  have hsecond : onNewStation (setKey stations (station2String s₁) t₁) s₂ t₂ =
      (setKey (setKey (setKey stations (station2String s₁) t₁) (station2String s₁) t₂)
         (station2String s₁) t₂, []) := by
    simp only [onNewStation, hkey, hlook, hbeq]
    rfl
  refine ⟨by rw [hfirst], by rw [hfirst]; exact hlook, by rw [hfirst, hsecond], ?_⟩
  rw [hfirst, hsecond]
  exact lookupKey_setKey_self _ _ _

/-- Witness for C4: two events for the same station with the channel list in
different orders, on an empty registry. -/
theorem c4_observe_twice_witness :
    (onNewStation [] { net := "NL", sta := "HGN", loc := "", channels := ["BHZ", "BHE"] }
        1000).2 =
      [HotEvent.add (station2String
        { net := "NL", sta := "HGN", loc := "", channels := ["BHZ", "BHE"] })] ∧
    lookupKey
        (onNewStation [] { net := "NL", sta := "HGN", loc := "", channels := ["BHZ", "BHE"] }
          1000).1
        (station2String { net := "NL", sta := "HGN", loc := "", channels := ["BHZ", "BHE"] }) =
      some 1000 ∧
    (onNewStation
        (onNewStation [] { net := "NL", sta := "HGN", loc := "", channels := ["BHZ", "BHE"] }
          1000).1
        { net := "NL", sta := "HGN", loc := "", channels := ["BHE", "BHZ"] } 2000).2 = [] ∧
    lookupKey
        (onNewStation
          (onNewStation [] { net := "NL", sta := "HGN", loc := "", channels := ["BHZ", "BHE"] }
            1000).1
          { net := "NL", sta := "HGN", loc := "", channels := ["BHE", "BHZ"] } 2000).1
        (station2String { net := "NL", sta := "HGN", loc := "", channels := ["BHZ", "BHE"] }) =
      some 2000 :=
  c4_observe_twice []
    { net := "NL", sta := "HGN", loc := "", channels := ["BHZ", "BHE"] }
    { net := "NL", sta := "HGN", loc := "", channels := ["BHE", "BHZ"] }
    1000 2000 (by decide) rfl (by decide)

theorem eraseKey_eq_filter {α : Type} (l : List (String × α)) (k : String) :
    eraseKey l k = l.filter (fun kv => decide (kv.1 ≠ k)) := by
  induction l with
  | nil => rfl
  | cons kv rest ih =>
    obtain ⟨k₁, v₁⟩ := kv
    by_cases h : k₁ = k <;> simp [eraseKey, h, ih]

theorem foldl_eraseKey {α : Type} (keys : List String) (l : List (String × α)) :
    keys.foldl eraseKey l = l.filter (fun kv => decide (kv.1 ∉ keys)) := by
  induction keys generalizing l with
  | nil => simp
  | cons d ds ih =>
    rw [List.foldl_cons, ih, eraseKey_eq_filter, List.filter_filter]
    refine List.filter_congr ?_
    intro kv _
    by_cases h₁ : kv.1 = d <;> by_cases h₂ : kv.1 ∈ ds <;> simp [h₁, h₂]

theorem cleaner_keys (stations : List (String × Nat)) (timeout now : Nat)
    (hnd : (stations.map Prod.fst).Nodup) :
    (stations.map Prod.fst).filter (fun key =>
        match lookupKey stations key with
        | some time => decide (time + timeout < now)
        | none => false) =
      (stations.filter (fun kv => decide (kv.2 + timeout < now))).map Prod.fst := by
  induction stations with
  | nil => rfl
  | cons kv rest ih =>
    obtain ⟨k, v⟩ := kv
    simp only [List.map_cons, List.nodup_cons] at hnd
    obtain ⟨hk, hnd'⟩ := hnd
    have hcongr : (rest.map Prod.fst).filter (fun key =>
          match lookupKey ((k, v) :: rest) key with
          | some time => decide (time + timeout < now)
          | none => false) =
        (rest.map Prod.fst).filter (fun key =>
          match lookupKey rest key with
          | some time => decide (time + timeout < now)
          | none => false) := by
      refine List.filter_congr ?_
      intro key hkey
      have hne : ¬ (k = key) := fun h => hk (h ▸ hkey)
      simp [lookupKey, hne]
    rw [List.map_cons, List.filter_cons, List.filter_cons]
    have hself : lookupKey ((k, v) :: rest) k = some v := by simp [lookupKey]
    rw [hcongr, ih hnd']
    by_cases hv : v + timeout < now <;> simp [hself, hv]

/-- Claim C5: one registry sweep removes exactly the entries whose last-seen
timestamp plus the TTL has elapsed at sweep time (`time + TTL < now`),
emits exactly one `remove` per removed key in table order, and leaves every
entry still within the TTL unchanged (same key, same timestamp, same order). -/
theorem c5_sweep (stations : List (String × Nat)) (timeout now : Nat)
    (hnd : (stations.map Prod.fst).Nodup) :
    (cleaner stations timeout now).1 =
      stations.filter (fun kv => decide (now ≤ kv.2 + timeout)) ∧
    (cleaner stations timeout now).2 =
      (stations.filter (fun kv => decide (kv.2 + timeout < now))).map
        (fun kv => HotEvent.remove kv.1) := by
  simp only [cleaner]
  rw [cleaner_keys stations timeout now hnd]
  constructor
  · rw [foldl_eraseKey]
    refine List.filter_congr ?_
    intro kv hkv
    by_cases hv : kv.2 + timeout < now
    · have hmem : kv.1 ∈
          (stations.filter (fun kv => decide (kv.2 + timeout < now))).map Prod.fst :=
        List.mem_map_of_mem Prod.fst (List.mem_filter.mpr ⟨hkv, by simp [hv]⟩)
      simp [hmem]
      omega
    · have hnotmem : kv.1 ∉
          (stations.filter (fun kv => decide (kv.2 + timeout < now))).map Prod.fst := by
        intro hmem
        obtain ⟨kv₂, hkv₂, hfst⟩ := List.mem_map.mp hmem
        obtain ⟨hkv₂mem, hpred⟩ := List.mem_filter.mp hkv₂
        have heq : kv₂ = kv := List.inj_on_of_nodup_map hnd hkv₂mem hkv hfst
        rw [heq] at hpred
        simp at hpred
        exact hv hpred
      simp [hnotmem]
      omega
  · rw [List.map_map]
    rfl

/-- Witness for C5: of two entries, the expired one is removed with one
`remove` notification and the fresh one is untouched. -/
theorem c5_sweep_witness :
    (cleaner [("NL.HGN.:BHZ", 10), ("NL.WIT.:BHZ", 100)] 50 100).1 =
      [("NL.HGN.:BHZ", 10), ("NL.WIT.:BHZ", 100)].filter
        (fun kv => decide (100 ≤ kv.2 + 50)) ∧
    (cleaner [("NL.HGN.:BHZ", 10), ("NL.WIT.:BHZ", 100)] 50 100).2 =
      ([("NL.HGN.:BHZ", 10), ("NL.WIT.:BHZ", 100)].filter
        (fun kv => decide (kv.2 + 50 < 100))).map (fun kv => HotEvent.remove kv.1) :=
  c5_sweep [("NL.HGN.:BHZ", 10), ("NL.WIT.:BHZ", 100)] 50 100 (by decide)

/-! ## Claim C6: the HOT.ALL umbrella subscription -/

/-- Claim C6: a `/subscribe HOT.ALL` message sets the umbrella-subscribed
flag and invokes `connect()` on exactly the channels whose name carries the
`HOT.ALL` prefix (others are untouched); afterwards a registry `add` for an
unknown derived name appends a newly created proxy, which is connected when
the flag is set and left disconnected otherwise, without touching the flag. -/
theorem c6_umbrella (st st₂ : DispatchState) (stationStr : String)
    (tmpl : ChannelConfig)
    (h₁ : st₂.hotAllChannel = some tmpl)
    (h₂ : lookupKey st₂.channels ("HOT.ALL." ++ stationStr) = none) :
    (onMessage st ["/subscribe", "HOT.ALL"]).hotAllSubscribed = true ∧
    (onMessage st ["/subscribe", "HOT.ALL"]).channels =
      st.channels.map (fun np =>
        if strStartsWith np.1 "HOT.ALL" then (np.1, connectCall np.2) else np) ∧
    (onHotStationAdd st₂ stationStr).channels =
      st₂.channels ++ [("HOT.ALL." ++ stationStr,
        if st₂.hotAllSubscribed then
          connectCall (newSeedlinkProxy (station2channel tmpl stationStr))
        else newSeedlinkProxy (station2channel tmpl stationStr))] ∧
    (onHotStationAdd st₂ stationStr).hotAllSubscribed = st₂.hotAllSubscribed ∧
    (connectCall (newSeedlinkProxy (station2channel tmpl stationStr))).connected = true ∧
    (newSeedlinkProxy (station2channel tmpl stationStr)).connected = false := by
  have hmsg : onMessage st ["/subscribe", "HOT.ALL"] =
      { st with
          hotAllSubscribed := true,
          channels := st.channels.map (fun np =>
            if np.1 ∈ (st.channels.map Prod.fst).filter
                (fun name => strStartsWith name "HOT.ALL")
            then (np.1, connectCall np.2) else np) } := by
    simp [onMessage]
  have hadd : onHotStationAdd st₂ stationStr =
      { st₂ with channels := st₂.channels ++ [("HOT.ALL." ++ stationStr,
          if st₂.hotAllSubscribed then
            connectCall (newSeedlinkProxy (station2channel tmpl stationStr))
          else newSeedlinkProxy (station2channel tmpl stationStr))] } := by
    simp only [onHotStationAdd, h₁]
    have hname : (station2channel tmpl stationStr).name = "HOT.ALL." ++ stationStr := rfl
    rw [hname, h₂]
  refine ⟨by rw [hmsg], ?_, by rw [hadd], by rw [hadd], ?_, rfl⟩
  · rw [hmsg]
    refine List.map_congr_left ?_
    intro np hnp
    have hmemiff : np.1 ∈ (st.channels.map Prod.fst).filter
        (fun name => strStartsWith name "HOT.ALL") ↔
        strStartsWith np.1 "HOT.ALL" = true := by
      constructor
      · intro hmem
        exact (List.mem_filter.mp hmem).2
      · intro hsw
        exact List.mem_filter.mpr ⟨List.mem_map_of_mem Prod.fst hnp, hsw⟩
    by_cases hc : strStartsWith np.1 "HOT.ALL" = true
    · rw [if_pos (hmemiff.mpr hc), if_pos hc]
    · rw [if_neg (fun hm => hc (hmemiff.mp hm)), if_neg hc]
  · simp [connectCall, step, newSeedlinkProxy]

/-- Witness for C6 at a concrete one-channel dispatch state (umbrella not
yet subscribed) and a concrete station key. -/
theorem c6_umbrella_witness :
    (onMessage
        (DispatchState.mk
          [("HOT.ALL.A", newSeedlinkProxy (ChannelConfig.mk "HOT.ALL.A" "h" 18000 []))]
          (some (ChannelConfig.mk "HOT.ALL" "h" 18000 [])) false)
        ["/subscribe", "HOT.ALL"]).hotAllSubscribed = true ∧
    (onMessage
        (DispatchState.mk
          [("HOT.ALL.A", newSeedlinkProxy (ChannelConfig.mk "HOT.ALL.A" "h" 18000 []))]
          (some (ChannelConfig.mk "HOT.ALL" "h" 18000 [])) false)
        ["/subscribe", "HOT.ALL"]).channels =
      [("HOT.ALL.A", newSeedlinkProxy (ChannelConfig.mk "HOT.ALL.A" "h" 18000 []))].map
        (fun np => if strStartsWith np.1 "HOT.ALL" then (np.1, connectCall np.2) else np) ∧
    (onHotStationAdd
        (DispatchState.mk
          [("HOT.ALL.A", newSeedlinkProxy (ChannelConfig.mk "HOT.ALL.A" "h" 18000 []))]
          (some (ChannelConfig.mk "HOT.ALL" "h" 18000 [])) false)
        "NL.WIT.:BHZ").channels =
      [("HOT.ALL.A", newSeedlinkProxy (ChannelConfig.mk "HOT.ALL.A" "h" 18000 []))] ++
        [("HOT.ALL." ++ "NL.WIT.:BHZ",
          newSeedlinkProxy
            (station2channel (ChannelConfig.mk "HOT.ALL" "h" 18000 []) "NL.WIT.:BHZ"))] ∧
    (onHotStationAdd
        (DispatchState.mk
          [("HOT.ALL.A", newSeedlinkProxy (ChannelConfig.mk "HOT.ALL.A" "h" 18000 []))]
          (some (ChannelConfig.mk "HOT.ALL" "h" 18000 [])) false)
        "NL.WIT.:BHZ").hotAllSubscribed = false ∧
    (connectCall (newSeedlinkProxy
        (station2channel (ChannelConfig.mk "HOT.ALL" "h" 18000 []) "NL.WIT.:BHZ"))).connected =
      true ∧
    (newSeedlinkProxy
        (station2channel (ChannelConfig.mk "HOT.ALL" "h" 18000 []) "NL.WIT.:BHZ")).connected =
      false :=
  c6_umbrella
    (DispatchState.mk
      [("HOT.ALL.A", newSeedlinkProxy (ChannelConfig.mk "HOT.ALL.A" "h" 18000 []))]
      (some (ChannelConfig.mk "HOT.ALL" "h" 18000 [])) false)
    (DispatchState.mk
      [("HOT.ALL.A", newSeedlinkProxy (ChannelConfig.mk "HOT.ALL.A" "h" 18000 []))]
      (some (ChannelConfig.mk "HOT.ALL" "h" 18000 [])) false)
    "NL.WIT.:BHZ"
    (ChannelConfig.mk "HOT.ALL" "h" 18000 [])
    rfl (by decide)

end SeedlinkData
